import Mathlib

/-!
Verification of the Infinity-Polyhedra firmware core against its
natural-language specification.

The development shallowly embeds three C modules:
  * `led_render.c`   — framebuffer + pixel-write API + protocol bit encoding
  * `polyhedron.c`   — polyhedron topology (seeds, prepare, dual, truncate)
  * `led_mapping.c`  — LED-to-edge mapping (pixel map, edge info, remap/flip)

Machine integers are modelled as `Nat` with explicit `% 2^w` at the points
where the C could wrap (`qadd8`); for the counters that the C keeps in
`uint8_t`/`uint16_t` the theorems carry the capacity hypotheses of the
original claims, under which the `Nat` model coincides with the C values.
Float vertex positions are omitted from the topology embedding: the source
functions `poly_normalize` and `poly_radial_normalize` scale only the
`float v[][3]` coordinates and never touch the `V/F/fv/f/E/e/e2f`
topological fields, which are the only data the claims below concern.
The C heap backing the framebuffer is modelled as a total function
`Nat → rgb_8b`, so that out-of-bounds writes are observable.
-/

set_option maxRecDepth 8000

namespace InfinityPoly

open scoped List

/-- `rgb_8b` from `led_render.h`: three 8-bit channels. -/
structure rgb_8b where
  r : Nat
  g : Nat
  b : Nat
deriving DecidableEq, Repr

instance : Inhabited rgb_8b := ⟨⟨0, 0, 0⟩⟩

/-- Module-private state of `led_render.c`: `render_ready`, `pixels_total`,
`pixels_per_str`, `strip_cnt`, and the heap cell array `framebuffer`
(modelled as a total function on `Nat` so out-of-range accesses are visible). -/
structure RenderState where
  render_ready : Bool
  pixels_total : Nat
  pixels_per_str : Nat
  strip_cnt : Nat
  framebuffer : Nat → rgb_8b

/-- `qadd8` from `led_render.c`: `uint8_t s = a + b;` wraps mod 256, then
`(s < a) ? 255 : s` (saturating add for 8-bit inputs). -/
def qadd8 (a b : Nat) : Nat :=
  let s := (a + b) % 256
  if s < a then 255 else s

/-- `set_all_pixels_color`: guarded by `render_ready`; overwrites every
framebuffer cell with index below `pixels_total`. -/
def set_all_pixels_color (s : RenderState) (r g b : Nat) : RenderState :=
  if s.render_ready = false then s
  else { s with framebuffer := fun i =>
          if i < s.pixels_total then ⟨r, g, b⟩ else s.framebuffer i }

/-- `set_pixel_color`: guarded by `render_ready` and `idx >= pixels_total`. -/
def set_pixel_color (s : RenderState) (idx r g b : Nat) : RenderState :=
  if s.render_ready = false ∨ s.pixels_total ≤ idx then s
  else { s with framebuffer := fun i =>
          if i = idx then ⟨r, g, b⟩ else s.framebuffer i }

/-- `add_pixel_color`: the source has NO `render_ready`/range guard; it only
early-returns when `(r | g | b) == 0`, then saturating-adds into
`framebuffer[idx]` unconditionally. -/
def add_pixel_color (s : RenderState) (idx r g b : Nat) : RenderState :=
  if r ||| g ||| b = 0 then s
  else
    let c := s.framebuffer idx
    { s with framebuffer := fun i =>
        if i = idx then ⟨qadd8 c.r r, qadd8 c.g g, qadd8 c.b b⟩
        else s.framebuffer i }

/-- `subtract_pixel_color`: no guard at all in the source; reads
`framebuffer[idx]`, floors each channel subtraction at 0, writes it back. -/
def subtract_pixel_color (s : RenderState) (idx r g b : Nat) : RenderState :=
  let c := s.framebuffer idx
  { s with framebuffer := fun i =>
      if i = idx then
        ⟨if c.r > r then c.r - r else 0,
         if c.g > g then c.g - g else 0,
         if c.b > b then c.b - b else 0⟩
      else s.framebuffer i }

/-- `LED_RENDER_MAX_ALLOC`: `config.h` leaves the override commented out, so
the default `16 * 1024` from `led_render.h` applies. -/
def LED_RENDER_MAX_ALLOC : Nat := 16 * 1024

/-- `init_render` from `led_render.c`. `spi_null` models `spi_handles == NULL`;
`fb_ok`/`sb_ok` model the success of the two `malloc` calls. Mirrors the
source order: clear `render_ready`, argument guard, compute sizes, ceiling
check, allocate, zero the framebuffer, set `render_ready`. -/
def init_render (s : RenderState) (total_pixels strip_count : Nat)
    (spi_null fb_ok sb_ok : Bool) : RenderState × Bool :=
  let s := { s with render_ready := false }
  if total_pixels = 0 ∨ strip_count = 0 ∨ spi_null = true then (s, false)
  else
    let pps := (total_pixels + strip_count - 1) / strip_count
    let s := { s with pixels_total := total_pixels, strip_cnt := strip_count,
                      pixels_per_str := pps }
    let fb_bytes := 3 * total_pixels
    let sb_bytes := strip_count * (pps * 9 + 1)
    if LED_RENDER_MAX_ALLOC ≠ 0 ∧ fb_bytes + sb_bytes > LED_RENDER_MAX_ALLOC then
      (s, false)
    else if fb_ok = false ∨ sb_ok = false then (s, false)
    else ({ s with
             framebuffer := fun i =>
               if i < total_pixels then ⟨0, 0, 0⟩ else s.framebuffer i,
             render_ready := true }, true)

/-- `init_encode_tbl` from `led_render.c`, as a function of the input byte:
for bit positions 7 down to 0, shift the accumulator left by 3 and or in
`0b110` for a set bit, `0b100` for a clear bit. -/
def encode_tbl (v : Nat) : Nat :=
  (List.range 8).foldl
    (fun out k =>
      let b := 7 - k
      (out <<< 3) ||| (if (v >>> b) &&& 1 = 1 then 6 else 4))
    0

/-- Decoder written from the claim's words (not from the source): read the
eight 3-bit groups of the 24-bit code from the most significant down,
mapping group `0b100` to bit 0 and `0b110` to bit 1, failing otherwise. -/
def decode_groups (w : Nat) : Option Nat :=
  (List.range 8).foldl
    (fun acc k =>
      match acc with
      | none => none
      | some v =>
        match (w >>> (3 * (7 - k))) &&& 7 with
        | 4 => some (v * 2)
        | 6 => some (v * 2 + 1)
        | _ => none)
    (some 0)

/-! ## Topology engine (`polyhedron.c` / `polyhedron.h`)

The embedding keeps only the topological fields of `struct Polyhedron`
(`V`, `F`/`fv`/`f` as a list of faces, `E`/`e`, `e2f`).  The float vertex
coordinates `v[][3]` are omitted: no source function lets them influence
the topological fields, and every claim below is purely topological.
Accordingly `poly_normalize` / `poly_radial_normalize`, which scale only
coordinates, are the identity here.  `uint8_t` counters are modelled as
`Nat`; the claims carry the repository's capacity bounds
(`POLY_MAX_V = 200`, `POLY_MAX_E = 300`, `POLY_MAX_F = 120`,
`POLY_MAX_FV = 10`, and `E ≤ 255` since `p->E` is a `uint8_t`), under
which the `Nat` model agrees with the C arithmetic. -/

/-- `Edge` from `polyhedron.h` (vertex indices, canonically `a < b`). -/
structure PEdge where
  a : Nat
  b : Nat
deriving DecidableEq, Repr

instance : Inhabited PEdge := ⟨⟨0, 0⟩⟩

/-- Topological fields of `struct Polyhedron`.  `F = f.length`,
`fv[i] = (f.get i).length`, `E = e.length`; `e2f` is the per-edge pair of
adjacent face slots (`255` = empty slot, as the source's `0xFF` memset). -/
structure Polyhedron where
  V : Nat
  f : List (List Nat)
  e : List PEdge
  e2f : List (Nat × Nat)
deriving DecidableEq, Repr

/-- `POLY_MAX_E` from `polyhedron.h`. -/
def POLY_MAX_E : Nat := 300

/-- The face-adjacency update of `_build_edges`:
`if (e2f[e][0]==0xFF) e2f[e][0]=f; else e2f[e][1]=f;`. -/
def e2f_add (slots : Nat × Nat) (fidx : Nat) : Nat × Nat :=
  if slots.1 = 255 then (fidx, slots.2) else (slots.1, fidx)

/-- The consecutive vertex pairs `(f[i], f[(i+1) % n])` of one face. -/
def face_pairs (vs : List Nat) : List (Nat × Nat) :=
  vs.zip (vs.rotate 1)

/-- Inner loop body of `_build_edges` for the pairs of one face `fidx`:
canonicalize `(min,max)`, look the edge up, append it if new (subject to
the `POLY_MAX_E` cap, whose `break` abandons the rest of the face), and
record face adjacency. -/
def add_face_pairs (fidx : Nat) :
    List (Nat × Nat) → List PEdge × List (Nat × Nat) → List PEdge × List (Nat × Nat)
  | [], st => st
  | (x, y) :: rest, st =>
    let a := if x > y then y else x
    let b := if x > y then x else y
    match st.1.findIdx? (fun ed => ed.a == a && ed.b == b) with
    | some i =>
      add_face_pairs fidx rest (st.1, st.2.set i (e2f_add (st.2.getD i (255, 255)) fidx))
    | none =>
      if st.1.length ≥ POLY_MAX_E then st
      else add_face_pairs fidx rest (st.1 ++ [⟨a, b⟩], st.2 ++ [(fidx, 255)])

/-- `_build_edges`: reset `E`/`e2f`, then scan every face's consecutive
vertex pairs in face order, deduplicating edges and filling `e2f`. -/
def build_edges (p : Polyhedron) : Polyhedron :=
  let st := p.f.enum.foldl (fun st fi => add_face_pairs fi.1 (face_pairs fi.2) st) ([], [])
  { p with e := st.1, e2f := st.2 }

/-- `poly_normalize`: uniform rescale of the (omitted) float coordinates;
identity on the topological fields kept by this embedding. -/
def poly_normalize (p : Polyhedron) : Polyhedron := p

/-- `poly_radial_normalize`: per-vertex rescale of the (omitted) float
coordinates; identity on the topological fields kept by this embedding. -/
def poly_radial_normalize (p : Polyhedron) : Polyhedron := p

/-- `poly_prepare`: normalize, then rebuild the edge table and `e2f`. -/
def poly_prepare (p : Polyhedron) : Polyhedron :=
  build_edges (poly_normalize p)

/-- `poly_find_edge`: swap so `v0 <= v1`, scan the edge list in order for
an exact `(a,b)` match, return its index, else the sentinel `0xFF`. -/
def poly_find_edge (p : Polyhedron) (v0 v1 : Nat) : Nat :=
  let w0 := if v0 > v1 then v1 else v0
  let w1 := if v0 > v1 then v0 else v1
  match p.e.findIdx? (fun ed => ed.a == w0 && ed.b == w1) with
  | some i => i
  | none => 255

/-- `poly_init_cube`: the cube seeded as 12 TRIANGLES (two per cube face),
then radially normalized and prepared. -/
def poly_init_cube : Polyhedron :=
  let seed : Polyhedron :=
    { V := 8
      f := [[0,2,3],[0,3,1],[4,5,7],[4,7,6],
            [0,1,5],[0,5,4],[2,6,7],[2,7,3],
            [0,4,6],[0,6,2],[1,3,7],[1,7,5]]
      e := []
      e2f := [] }
  poly_prepare (poly_radial_normalize seed)

/-- `poly_init_cube4`: the cube seeded as 6 quads. -/
def poly_init_cube4 : Polyhedron :=
  let seed : Polyhedron :=
    { V := 8
      f := [[0,2,3,1],[4,5,7,6],
            [0,1,5,4],[2,6,7,3],
            [0,4,6,2],[1,3,7,5]]
      e := []
      e2f := [] }
  poly_prepare (poly_radial_normalize seed)

/-- Common-vertex count of `sort_incident_faces`: every pair of equal
entries between the two vertex lists counts (with multiplicity). -/
def common_verts (vs1 vs2 : List Nat) : Nat :=
  (vs1.map (fun a => vs2.count a)).sum

/-- `sort_incident_faces`: `order[0] = 0`; each subsequent slot is the
first unused incident face sharing exactly two vertices (an edge) with the
previously placed face.  When no such face exists the C leaves the slot's
stack garbage; this model writes 0 there (unreachable for the manifold
inputs the source feeds it). -/
def sort_incident_faces (p : Polyhedron) (inc : List Nat) : List Nat :=
  let n := inc.length
  let step := fun (st : List Nat × List Bool) (_ : Nat) =>
    let prev_face := inc.getD (st.1.getD (st.1.length - 1) 0) 0
    let cand := (List.range n).findIdx? (fun j =>
      !(st.2.getD j true) &&
        common_verts ((p.f.getD prev_face []))
          ((p.f.getD (inc.getD j 0) [])) == 2)
    match cand with
    | some j => (st.1 ++ [j], st.2.set j true)
    | none => (st.1 ++ [0], st.2)
  ((List.range (n - 1)).foldl step ([0], (List.replicate n false).set 0 true)).1

/-- `poly_dual`: guard `in->F > POLY_MAX_V || in->V > POLY_MAX_F` returns
with the output untouched; otherwise face centroids become vertices
(`out.V = in.F`; the coordinates are omitted), each vertex's incident-face
list becomes a face (cyclically sorted when it has more than two members),
and the result is radially normalized and prepared. -/
def poly_dual (inp out : Polyhedron) : Polyhedron :=
  if inp.f.length > 200 ∨ inp.V > 120 then out
  else
    let newFaces := (List.range inp.V).map (fun vi =>
      let inc := (List.range inp.f.length).filter (fun fi => vi ∈ inp.f.getD fi [])
      if inc.length > 2 then
        (sort_incident_faces inp inc).map (fun k => inc.getD k 0)
      else inc)
    poly_prepare (poly_radial_normalize { V := inp.f.length, f := newFaces, e := [], e2f := [] })

/-- `poly_truncate`: pool-allocate a scratch copy (failure leaves the
output untouched), re-prepare it, create the cut vertices `cutA[e] = 2e`,
`cutB[e] = 2e+1` (positions omitted; `out->V = 2*E`), shrink each original
face, add one face per original vertex from its incident edges in found
order, then radially normalize and prepare.  The parameter `t` only enters
the omitted float lerp. -/
def poly_truncate (alloc_ok : Bool) (inp out : Polyhedron) (_t : Rat) : Polyhedron :=
  if alloc_ok = false then out
  else
    let tmp := poly_prepare inp
    let outV := 2 * tmp.e.length
    let faceFaces := tmp.f.map (fun vs =>
      (face_pairs vs).map (fun vij =>
        let eidx := poly_find_edge tmp vij.1 vij.2
        if vij.1 = (tmp.e.getD eidx default).a then 2 * eidx else 2 * eidx + 1))
    let vertFaces := (List.range tmp.V).map (fun vi =>
      (tmp.e.enum.filter (fun ei => ei.2.a == vi || ei.2.b == vi)).map
        (fun ei => if vi = ei.2.a then 2 * ei.1 else 2 * ei.1 + 1))
    poly_prepare (poly_radial_normalize
      { V := outV, f := faceFaces ++ vertFaces, e := [], e2f := [] })

/-- A freshly pool-allocated scratch polyhedron: `poly_alloc` zeroes the
whole struct, so `V = 0`, `F = 0` and the derived tables are empty. -/
def zero_poly : Polyhedron := { V := 0, f := [], e := [], e2f := [] }

/-- `poly_init_icosahedron`: 12 vertices, 20 triangles, radially
normalized and prepared. -/
def poly_init_icosahedron : Polyhedron :=
  let seed : Polyhedron :=
    { V := 12
      f := [[0,1,8],[0,8,4],[0,4,5],[0,5,10],[0,10,1],
            [1,8,6],[1,6,7],[1,7,10],
            [2,3,11],[2,11,5],[2,5,4],[2,4,9],[2,9,3],
            [3,9,6],[3,6,7],[3,7,11],
            [4,8,9],[5,11,10],[6,8,9],[7,10,11]]
      e := []
      e2f := [] }
  poly_prepare (poly_radial_normalize seed)

/-- `poly_init_octahedron`: a pool-allocated scratch cube-as-quads fed to
`poly_dual`, writing into the caller's buffer; pool exhaustion leaves the
buffer untouched. -/
def poly_init_octahedron (alloc_ok : Bool) (p : Polyhedron) : Polyhedron :=
  if alloc_ok = false then p
  else poly_dual poly_init_cube4 p

/-- `poly_init_dodecahedron`: dual of a scratch icosahedron. -/
def poly_init_dodecahedron (alloc_ok : Bool) (p : Polyhedron) : Polyhedron :=
  if alloc_ok = false then p
  else poly_dual poly_init_icosahedron p

/-- `poly_init_icosidodecahedron`: half-truncate a scratch dodecahedron
and struct-copy the result into the caller's buffer. -/
def poly_init_icosidodecahedron (alloc_ok : Bool) (p : Polyhedron) : Polyhedron :=
  if alloc_ok = false then p
  else poly_truncate true (poly_init_dodecahedron true zero_poly) zero_poly
    (1/2 : Rat)

/-- The `seed` intermediate of
`poly_init_rhombitruncated_icosidodecahedron`: the icosidodecahedron,
re-normalized and re-prepared. -/
def rhombi_seed : Polyhedron :=
  poly_prepare (poly_radial_normalize
    (poly_init_icosidodecahedron true zero_poly))

/-- The `tmp` intermediate of
`poly_init_rhombitruncated_icosidodecahedron`: the half-truncation of
`rhombi_seed`, which the constructor feeds to `poly_dual`.  The source's
`t = 0.5` truncation keeps both cut vertices of every edge (midpoints are
NOT merged), so this solid has `2 · 120 = 240` vertices. -/
def rhombi_dual_input : Polyhedron :=
  poly_truncate true rhombi_seed zero_poly (1/2 : Rat)

/-- `poly_init_rhombitruncated_icosidodecahedron`: dualize
`rhombi_dual_input` into the caller's buffer, then — unconditionally —
radially normalize and re-prepare that buffer (`polyhedron.c:648-649`). -/
def poly_init_rhombitruncated_icosidodecahedron (alloc_ok : Bool)
    (p : Polyhedron) : Polyhedron :=
  if alloc_ok = false then p
  else poly_prepare (poly_radial_normalize (poly_dual rhombi_dual_input p))

/-! ## Mapping layer (`led_mapping.c` / `led_mapping.h`)

Module state after `init_mapping`: `leds_per_edge`, `edge_map`, `flip_map`
(all of length `edge_cnt = p->E`), from which `update_mappings` derives
`pixel_map` and `edge_info`.  The arrays are `uint8_t`/`uint16_t`; with at
most 255 edges of at most 255 LEDs each, every sum here stays below
`2^16`, so `Nat` arithmetic coincides with the C. -/

/-- `struct PixelMapping` from `led_mapping.h`. -/
structure PixelMapping where
  edge : Nat
  phys : Nat
deriving DecidableEq, Repr

instance : Inhabited PixelMapping := ⟨⟨0, 0⟩⟩

/-- `EdgeLedInfo` from `led_mapping.h` (`step` is a signed `int8_t`). -/
structure EdgeLedInfo where
  start : Nat
  count : Nat
  step : Int
deriving DecidableEq, Repr

instance : Inhabited EdgeLedInfo := ⟨⟨0, 0, 1⟩⟩

/-- The mutable mapping-module state the rebuild reads:
`leds_per_edge[E]`, `edge_map[E]`, `flip_map[E]`. -/
structure MappingState where
  leds_per_edge : List Nat
  edge_map : List Nat
  flip_map : List Bool
deriving DecidableEq, Repr

/-- The block one logical edge contributes in `mapping_build_pixel_map`:
`led_cnt = leds_per_edge[logical]`, `phys = edge_map[logical]`,
`base = Σ_{i < phys} leds_per_edge[i]`, and `led_cnt` entries
`(logical, base + offset)` with `offset` reversed when flipped. -/
def edge_block (s : MappingState) (logical : Nat) : List PixelMapping :=
  let led_cnt := s.leds_per_edge.getD logical 0
  let phys := s.edge_map.getD logical 0
  let rev := s.flip_map.getD logical false
  let base := (s.leds_per_edge.take phys).sum
  (List.range led_cnt).map (fun i =>
    ⟨logical, base + (if rev then led_cnt - 1 - i else i)⟩)

/-- `mapping_build_pixel_map`: concatenate the blocks of every logical
edge in logical order (`px_idx` insertion order). -/
def mapping_build_pixel_map (s : MappingState) : List PixelMapping :=
  (List.range s.leds_per_edge.length).flatMap (edge_block s)

/-- `build_edge_index_map`: per logical edge, the physical start
(`base + cnt - 1` when flipped, else `base`), the LED count, and the
signed step `-1`/`+1`. -/
def build_edge_index_map (s : MappingState) : List EdgeLedInfo :=
  (List.range s.leds_per_edge.length).map (fun e =>
    let base := (s.leds_per_edge.take (s.edge_map.getD e 0)).sum
    let cnt := s.leds_per_edge.getD e 0
    let rev := s.flip_map.getD e false
    { start := if rev then base + cnt - 1 else base
      count := cnt
      step := if rev then -1 else 1 })

/-- `update_mappings`: rebuild both derived views from the current state. -/
def update_mappings (s : MappingState) : List PixelMapping × List EdgeLedInfo :=
  (mapping_build_pixel_map s, build_edge_index_map s)

/-- A caller's `flip_map[e] = !flip_map[e]` edit through
`mapping_edit_flip_map`. -/
def toggle_flip (s : MappingState) (e : Nat) : MappingState :=
  { s with flip_map := s.flip_map.set e (!(s.flip_map.getD e false)) }

/-! ## Concrete states used by closed theorems -/

/-- An uninitialized render state (`render_ready == false`, zero pixels,
heap cells all zero). -/
def render_state_unready : RenderState :=
  ⟨false, 0, 0, 0, fun _ => ⟨0, 0, 0⟩⟩

/-- An uninitialized render state whose heap cell 0 holds `(5,5,5)`. -/
def render_state_stale : RenderState :=
  ⟨false, 0, 0, 0, fun _ => ⟨5, 5, 5⟩⟩

/-- A two-edge mapping state with LED counts `[1, 2]` and the swap
permutation `edge_map = [1, 0]`. -/
def mapping_state_swap : MappingState :=
  ⟨[1, 2], [1, 0], [false, false]⟩

/-- An input polyhedron with 121 vertices and no faces, exceeding
`POLY_MAX_F = 120`. -/
def poly_oversized : Polyhedron :=
  { V := 121, f := [], e := [], e2f := [] }

/-- A caller's result buffer holding stale data: one vertex, no faces,
and a leftover edge-table entry from an earlier build. -/
def poly_stale : Polyhedron :=
  { V := 1, f := [], e := [⟨0, 1⟩], e2f := [(0, 255)] }

/-! ## Claim theorems -/

/-- C1 (code bug witness): the spec requires every pixel-write call to be a
no-op when the pipeline is uninitialized or the index is at least
`pixels_total`.  `set_pixel_color` and `set_all_pixels_color` honour this,
but `add_pixel_color` and `subtract_pixel_color` have no guard at all and
access `framebuffer[idx]` unconditionally: on the uninitialized zero-pixel
state (where index 0 is also out of range) they change the heap. -/
theorem pixel_write_guard_violation :
    set_pixel_color render_state_unready 0 1 2 3 = render_state_unready ∧
    set_all_pixels_color render_state_unready 1 2 3 = render_state_unready ∧
    add_pixel_color render_state_unready 0 1 0 0 ≠ render_state_unready ∧
    subtract_pixel_color render_state_stale 0 1 1 1 ≠ render_state_stale := by
  refine ⟨rfl, rfl, fun h => ?_, fun h => ?_⟩
  · have h0 := congrArg (fun st => (st.framebuffer 0).r) h
    simp [add_pixel_color, qadd8, render_state_unready] at h0
  · have h0 := congrArg (fun st => (st.framebuffer 0).r) h
    simp [subtract_pixel_color, render_state_stale] at h0

/-- C2 (counterexample): `poly_init_cube` seeds the cube as 12 triangles,
so after it returns the edge count is 18 and the face count 12 — not the
claimed `E = 12`, `F = 6`. -/
theorem cube_counts_refuted :
    ¬(poly_init_cube.V = 8 ∧ poly_init_cube.e.length = 12 ∧
      poly_init_cube.f.length = 6) := by
  decide

/-- C2 (amended): `poly_init_cube` yields `V = 8`, `E = 18`, `F = 12`
(12 triangles, two per cube face plus the 6 resulting diagonals); the
claimed `V = 8`, `E = 12`, `F = 6` holds for the quad-face constructor
`poly_init_cube4`. -/
theorem cube_counts :
    poly_init_cube.V = 8 ∧ poly_init_cube.e.length = 18 ∧
    poly_init_cube.f.length = 12 ∧
    poly_init_cube4.V = 8 ∧ poly_init_cube4.e.length = 12 ∧
    poly_init_cube4.f.length = 6 := by
  decide

/-- Helper: when the input's face count exceeds `POLY_MAX_V = 200` or its
vertex count exceeds `POLY_MAX_F = 120`, `poly_dual` returns immediately
and the output polyhedron is left entirely unchanged. -/
theorem poly_dual_guard_noop (inp out : Polyhedron)
    (h : inp.f.length > 200 ∨ inp.V > 120) :
    poly_dual inp out = out := by
  unfold poly_dual
  rw [if_pos h]

/-- C10 (counterexample): the dual input that
`poly_init_rhombitruncated_icosidodecahedron` computes has 240 vertices
(the `t = 0.5` truncation keeps both cut vertices of each of the
icosidodecahedron's 120 edges), so the `poly_dual` guard fires on every
call of this constructor — yet the constructor does NOT leave its result
buffer unmodified: on a buffer with a stale edge-table entry, the trailing
`poly_radial_normalize` + `poly_prepare` rebuild the edge tables from the
buffer's faces, wiping the stale edge. -/
theorem rhombi_constructor_modifies_buffer :
    rhombi_dual_input.V > 120 ∧
    poly_init_rhombitruncated_icosidodecahedron true poly_stale
      ≠ poly_stale := by
  constructor
  · decide
  · decide

/-- C10 (amended): `poly_dual` with an input whose face count exceeds
`POLY_MAX_V = 200` or vertex count exceeds `POLY_MAX_F = 120` returns
immediately, leaving the output polyhedron entirely unchanged.  For the
composite constructors: octahedron and dodecahedron end with the dual
call, so in the guard case their result buffer would be returned exactly
as `poly_dual` left it; but `poly_init_rhombitruncated_icosidodecahedron`
ALWAYS hits the guard case — its dual input has `240 > 120` vertices — and
still rewrites its result buffer afterwards, returning the buffer
re-normalized and re-prepared rather than unmodified. -/
theorem poly_dual_guard_amended :
    (∀ inp out : Polyhedron, inp.f.length > 200 ∨ inp.V > 120 →
      poly_dual inp out = out) ∧
    (∀ p : Polyhedron, poly_init_octahedron true p
      = poly_dual poly_init_cube4 p) ∧
    (∀ p : Polyhedron, poly_init_dodecahedron true p
      = poly_dual poly_init_icosahedron p) ∧
    rhombi_dual_input.V = 240 ∧
    (∀ p : Polyhedron, poly_init_rhombitruncated_icosidodecahedron true p
      = poly_prepare (poly_radial_normalize p)) := by
  have h240 : rhombi_dual_input.V = 240 := by decide
  refine ⟨poly_dual_guard_noop, fun p => rfl, fun p => rfl, h240, fun p => ?_⟩
  unfold poly_init_rhombitruncated_icosidodecahedron
  rw [if_neg (by simp)]
  rw [poly_dual_guard_noop rhombi_dual_input p (Or.inr (by omega))]

/-- C10 witness: the guard leaves the concrete output `poly_init_cube`
untouched for a 121-vertex input, and the rhombitruncated constructor
maps the stale buffer to its re-prepared form. -/
theorem poly_dual_guard_amended_witness :
    poly_dual poly_oversized poly_init_cube = poly_init_cube ∧
    poly_init_rhombitruncated_icosidodecahedron true poly_stale
      = poly_prepare (poly_radial_normalize poly_stale) :=
  ⟨poly_dual_guard_amended.1 poly_oversized poly_init_cube
    (Or.inr (by decide)),
   poly_dual_guard_amended.2.2.2.2 poly_stale⟩

/-- C5: for every byte, each of the eight 3-bit groups of
`encode_tbl[v]` (most significant bit of `v` first) is `0b100` for a clear
bit and `0b110` for a set bit; decoding the groups reconstructs `v`
exactly, and the encoding is injective on `[0, 256)`. -/
theorem encode_tbl_roundtrip (v : Nat) (hv : v < 256) :
    (∀ k, k < 8 →
      (encode_tbl v >>> (3 * (7 - k))) &&& 7
        = (if (v >>> (7 - k)) &&& 1 = 1 then 6 else 4)) ∧
    decode_groups (encode_tbl v) = some v ∧
    (∀ w, w < 256 → encode_tbl w = encode_tbl v → w = v) := by
  have main : ∀ v, v < 256 →
      (∀ k, k < 8 →
        (encode_tbl v >>> (3 * (7 - k))) &&& 7
          = (if (v >>> (7 - k)) &&& 1 = 1 then 6 else 4)) ∧
      decode_groups (encode_tbl v) = some v := by decide
  refine ⟨(main v hv).1, (main v hv).2, fun w hw he => ?_⟩
  have h := congrArg decode_groups he
  rw [(main w hw).2, (main v hv).2] at h
  exact Option.some.inj h

/-- C5 witness: applying the round-trip theorem at the byte 171. -/
theorem encode_tbl_roundtrip_witness :
    decode_groups (encode_tbl 171) = some 171 :=
  (encode_tbl_roundtrip 171 (by decide)).2.1

/-- C8: `init_render` returns `false` whenever `total_pixels == 0`,
`strip_count == 0`, the SPI handle array is null, or the requested
framebuffer-plus-strip-buffer allocation exceeds `LED_RENDER_MAX_ALLOC`;
in each such case `render_ready` is false afterwards. -/
theorem init_render_failure (s : RenderState) (total strips : Nat)
    (spi_null fb_ok sb_ok : Bool)
    (h : total = 0 ∨ strips = 0 ∨ spi_null = true ∨
      3 * total + strips * (((total + strips - 1) / strips) * 9 + 1)
        > LED_RENDER_MAX_ALLOC) :
    (init_render s total strips spi_null fb_ok sb_ok).2 = false ∧
    (init_render s total strips spi_null fb_ok sb_ok).1.render_ready = false := by
  by_cases h1 : total = 0 ∨ strips = 0 ∨ spi_null = true
  · simp [init_render, h1]
  · push_neg at h1
    have hceil : 3 * total + strips * (((total + strips - 1) / strips) * 9 + 1)
        > LED_RENDER_MAX_ALLOC := by
      rcases h with h | h | h | h
      · exact absurd h h1.1
      · exact absurd h h1.2.1
      · exact absurd h h1.2.2
      · exact h
    have hmax : LED_RENDER_MAX_ALLOC ≠ 0 := by decide
    simp [init_render, h1.1, h1.2.1, h1.2.2, hmax, hceil]

/-- C8 witness: zero pixels is rejected and leaves `render_ready` false. -/
theorem init_render_failure_witness :
    (init_render render_state_unready 0 4 false true true).2 = false ∧
    (init_render render_state_unready 0 4 false true true).1.render_ready
      = false :=
  init_render_failure render_state_unready 0 4 false true true (Or.inl rfl)

/-- The `v0 > v1` swap at the head of `poly_find_edge` canonicalizes the
query to `(min, max)`. -/
theorem find_edge_eq_canon (p : Polyhedron) (v0 v1 : Nat) :
    poly_find_edge p v0 v1 =
      match p.e.findIdx? (fun ed => ed.a == min v0 v1 && ed.b == max v0 v1) with
      | some i => i
      | none => 255 := by
  unfold poly_find_edge
  by_cases h : v0 > v1
  · simp only [if_pos h]
    have h1 : v1 = min v0 v1 := by omega
    have h2 : v0 = max v0 v1 := by omega
    rw [← h1, ← h2]
  · simp only [if_neg h]
    have h1 : v0 = min v0 v1 := by omega
    have h2 : v1 = max v0 v1 := by omega
    rw [← h1, ← h2]

/-- C6: `poly_find_edge` is symmetric in its two vertex arguments; when
the canonical pair `(min, max)` is present in the edge list the result is
an index below `E` holding exactly that pair, and when it is absent the
result is the sentinel `0xFF`. -/
theorem poly_find_edge_spec (p : Polyhedron) (v0 v1 : Nat)
    (hE : p.e.length ≤ 255) :
    poly_find_edge p v0 v1 = poly_find_edge p v1 v0 ∧
    ((⟨min v0 v1, max v0 v1⟩ : PEdge) ∈ p.e →
      poly_find_edge p v0 v1 < p.e.length ∧
      p.e.getD (poly_find_edge p v0 v1) default = ⟨min v0 v1, max v0 v1⟩) ∧
    ((⟨min v0 v1, max v0 v1⟩ : PEdge) ∉ p.e →
      poly_find_edge p v0 v1 = 255) := by
  have hc := find_edge_eq_canon p v0 v1
  have hc2 := find_edge_eq_canon p v1 v0
  have hmin : min v1 v0 = min v0 v1 := Nat.min_comm v1 v0
  have hmax : max v1 v0 = max v0 v1 := Nat.max_comm v1 v0
  refine ⟨?_, ?_, ?_⟩
  · rw [hc, hc2, hmin, hmax]
  · intro hmem
    have hex : ∃ x, x ∈ p.e ∧
        (fun ed : PEdge => ed.a == min v0 v1 && ed.b == max v0 v1) x = true :=
      ⟨_, hmem, by simp⟩
    have hsome := List.findIdx?_eq_some_of_exists hex
    have hlt := List.findIdx_lt_length_of_exists hex
    rw [hc, hsome]
    refine ⟨hlt, ?_⟩
    have hgetp := List.findIdx_of_getElem?_eq_some (List.getElem?_eq_getElem hlt)
    rw [List.getD_eq_getElem?_getD, List.getElem?_eq_getElem hlt]
    simp only [Option.getD_some]
    generalize hq : p.e[p.e.findIdx
        (fun ed : PEdge => ed.a == min v0 v1 && ed.b == max v0 v1)] = q
      at hgetp ⊢
    rcases q with ⟨a, b⟩
    simp only [Bool.and_eq_true, beq_iff_eq] at hgetp
    simp only [PEdge.mk.injEq]
    exact ⟨hgetp.1, hgetp.2⟩
  · intro hnmem
    have hnone : p.e.findIdx?
        (fun ed : PEdge => ed.a == min v0 v1 && ed.b == max v0 v1) = none := by
      rw [List.findIdx?_eq_none_iff]
      intro x hx
      by_contra hpx
      simp only [Bool.not_eq_false, Bool.and_eq_true, beq_iff_eq] at hpx
      apply hnmem
      have : x = ⟨min v0 v1, max v0 v1⟩ := by
        cases x
        simp only [PEdge.mk.injEq]
        exact ⟨hpx.1, hpx.2⟩
      rw [← this]
      exact hx
    rw [hc, hnone]

/-- C6 witness: on the prepared triangulated cube, `poly_find_edge` is
symmetric at `(2,0)` and returns the sentinel for the non-adjacent pair
`(1,2)`. -/
theorem poly_find_edge_spec_witness :
    poly_find_edge poly_init_cube 2 0 = poly_find_edge poly_init_cube 0 2 ∧
    poly_find_edge poly_init_cube 1 2 = 255 :=
  ⟨(poly_find_edge_spec poly_init_cube 2 0 (by decide)).1,
   (poly_find_edge_spec poly_init_cube 1 2 (by decide)).2.2 (by decide)⟩

/-- `poly_prepare` rebuilds only the edge table and adjacency: the vertex
count and face list pass through unchanged. -/
theorem poly_prepare_V_f (p : Polyhedron) :
    (poly_prepare p).V = p.V ∧ (poly_prepare p).f = p.f := by
  constructor <;> rfl

/-- C4: on a prepared input within the capacity bounds (`2·E ≤ POLY_MAX_V`,
`F + V ≤ POLY_MAX_F`, `E ≤ 255`, face sizes and vertex degrees at most
`POLY_MAX_FV`) and with the scratch pool non-exhausted, `poly_truncate`
yields exactly `2·E` vertices and `F + V` faces. -/
theorem poly_truncate_counts (inp out : Polyhedron) (t : Rat)
    (hprep : poly_prepare inp = inp)
    (hV : 2 * inp.e.length ≤ 200)
    (hF : inp.f.length + inp.V ≤ 120)
    (hE : inp.e.length ≤ 255)
    (hfv : ∀ vs ∈ inp.f, vs.length ≤ 10)
    (hdeg : ∀ vi, vi < inp.V →
      (inp.e.filter (fun ed => ed.a == vi || ed.b == vi)).length ≤ 10) :
    (poly_truncate true inp out t).V = 2 * inp.e.length ∧
    (poly_truncate true inp out t).f.length = inp.f.length + inp.V := by
  unfold poly_truncate
  simp only [Bool.true_eq_false, if_false, hprep]
  constructor
  · rfl
  · show (poly_prepare _).f.length = _
    rw [(poly_prepare_V_f _).2]
    simp [poly_radial_normalize]

/-- C4 witness: truncating the prepared triangulated cube (`E = 18`,
`F = 12`, `V = 8`) yields `36` vertices and `20` faces. -/
theorem poly_truncate_counts_witness :
    (poly_truncate true poly_init_cube poly_init_cube4 (1/4 : Rat)).V
        = 2 * poly_init_cube.e.length ∧
    (poly_truncate true poly_init_cube poly_init_cube4 (1/4 : Rat)).f.length
        = poly_init_cube.f.length + poly_init_cube.V :=
  poly_truncate_counts poly_init_cube poly_init_cube4 (1/4 : Rat)
    (by decide) (by decide) (by decide) (by decide) (by decide) (by decide)

/-- Toggling one `flip_map` slot twice restores the list. -/
theorem flip_set_twice (l : List Bool) (e : Nat) (he : e < l.length) :
    (l.set e (!(l.getD e false))).set e
        (!((l.set e (!(l.getD e false))).getD e false)) = l := by
  apply List.ext_getElem?
  intro n
  by_cases hn : n = e
  · subst hn
    have hlen : n < (l.set n (!(l.getD n false))).length := by
      simpa using he
    simp [List.getElem?_set_self he, List.getElem?_set_self hlen,
      List.getD_eq_getElem?_getD, List.getElem?_eq_getElem he]
  · simp [List.getElem?_set_ne (fun h => hn h.symm)]

/-- A double toggle of `flip_map[e]` is the identity on the module state. -/
theorem toggle_flip_twice (s : MappingState) (e : Nat)
    (he : e < s.flip_map.length) :
    toggle_flip (toggle_flip s e) e = s := by
  cases s with
  | mk leds emap fmap =>
    unfold toggle_flip
    simp only [MappingState.mk.injEq, true_and]
    exact flip_set_twice fmap e he

/-- C9: toggling `flip_map[e]`, rebuilding, toggling again and rebuilding
again yields `pixel_map` and `edge_info` entries for edge `e` identical to
the originals. -/
theorem double_flip_restores (s : MappingState) (e : Nat)
    (he : e < s.flip_map.length) :
    (update_mappings (toggle_flip (toggle_flip s e) e)).1.filter
        (fun pm => pm.edge == e)
      = (update_mappings s).1.filter (fun pm => pm.edge == e) ∧
    (update_mappings (toggle_flip (toggle_flip s e) e)).2.getD e default
      = (update_mappings s).2.getD e default := by
  rw [toggle_flip_twice s e he]
  exact ⟨rfl, rfl⟩

/-- C9 witness: the double-flip identity at a concrete two-edge state. -/
theorem double_flip_restores_witness :
    (update_mappings
        (toggle_flip (toggle_flip ⟨[2, 3], [0, 1], [false, true]⟩ 1) 1)).1.filter
        (fun pm => pm.edge == 1)
      = (update_mappings ⟨[2, 3], [0, 1], [false, true]⟩).1.filter
          (fun pm => pm.edge == 1) ∧
    (update_mappings
        (toggle_flip (toggle_flip ⟨[2, 3], [0, 1], [false, true]⟩ 1) 1)).2.getD
        1 default
      = (update_mappings ⟨[2, 3], [0, 1], [false, true]⟩).2.getD 1 default :=
  double_flip_restores ⟨[2, 3], [0, 1], [false, true]⟩ 1 (by decide)

/-- Every entry of the block that logical edge `l` contributes to the
pixel map carries `l` in its `edge` field. -/
theorem edge_block_edge_eq (s : MappingState) (l : Nat) :
    ∀ pm ∈ edge_block s l, pm.edge = l := by
  intro pm hpm
  simp only [edge_block, List.mem_map, List.mem_range] at hpm
  obtain ⟨i, _, rfl⟩ := hpm
  rfl

/-- Filtering one edge's block by another edge index keeps everything or
nothing. -/
theorem edge_block_filter (s : MappingState) (l e : Nat) :
    (edge_block s l).filter (fun pm => pm.edge == e)
      = if l = e then edge_block s l else [] := by
  by_cases h : l = e
  · subst h
    rw [if_pos rfl]
    apply List.filter_eq_self.mpr
    intro pm hpm
    simp [edge_block_edge_eq s l pm hpm]
  · rw [if_neg h]
    apply List.filter_eq_nil_iff.mpr
    intro pm hpm
    simp [edge_block_edge_eq s l pm hpm, h]

/-- Flat-mapping a function that is empty except at a single element of a
duplicate-free list collapses to that element's value. -/
theorem flatMap_ite_single {α : Type} (L : List Nat) (e : Nat) (B : Nat → List α)
    (hnd : L.Nodup) (he : e ∈ L) :
    L.flatMap (fun l => if l = e then B l else []) = B e := by
  induction L with
  | nil => cases he
  | cons a L ih =>
    rw [List.flatMap_cons]
    rcases List.mem_cons.mp he with heq | hmem
    · subst heq
      rw [if_pos rfl]
      have hnil : L.flatMap (fun l => if l = e then B l else []) = [] := by
        apply List.flatMap_eq_nil_iff.mpr
        intro l hl
        exact if_neg (fun (h : l = e) => (List.nodup_cons.mp hnd).1 (h ▸ hl))
      rw [hnil, List.append_nil]
    · have hne : a ≠ e := fun h => (List.nodup_cons.mp hnd).1 (h ▸ hmem)
      rw [if_neg hne, List.nil_append,
        ih (List.nodup_cons.mp hnd).2 hmem]

/-- The pixel-map entries whose `edge` field is `e`, in insertion order,
are exactly the block logical edge `e` contributed. -/
theorem pixel_map_filter (s : MappingState) (e : Nat)
    (he : e < s.leds_per_edge.length) :
    (mapping_build_pixel_map s).filter (fun pm => pm.edge == e)
      = edge_block s e := by
  unfold mapping_build_pixel_map
  rw [List.filter_flatMap]
  have hfun : ∀ l, (edge_block s l).filter (fun pm => pm.edge == e)
      = if l = e then edge_block s l else [] := fun l => edge_block_filter s l e
  simp only [hfun]
  exact flatMap_ite_single _ e (edge_block s)
    (List.nodup_range _) (List.mem_range.mpr he)

/-- Closed form of the `edge_info[e]` record. -/
theorem edge_info_getD (s : MappingState) (e : Nat)
    (he : e < s.leds_per_edge.length) :
    (build_edge_index_map s).getD e default =
      { start := if s.flip_map.getD e false
            then (s.leds_per_edge.take (s.edge_map.getD e 0)).sum
              + s.leds_per_edge.getD e 0 - 1
            else (s.leds_per_edge.take (s.edge_map.getD e 0)).sum
        count := s.leds_per_edge.getD e 0
        step := if s.flip_map.getD e false then -1 else 1 } := by
  unfold build_edge_index_map
  rw [List.getD_eq_getElem?_getD, List.getElem?_map, List.getElem?_range he]
  rfl

/-- Closed form of the `i`-th pixel-map entry of one edge's block. -/
theorem edge_block_getD (s : MappingState) (e i : Nat)
    (hi : i < s.leds_per_edge.getD e 0) :
    (edge_block s e).getD i default =
      ⟨e, (s.leds_per_edge.take (s.edge_map.getD e 0)).sum
        + (if s.flip_map.getD e false
           then s.leds_per_edge.getD e 0 - 1 - i else i)⟩ := by
  unfold edge_block
  rw [List.getD_eq_getElem?_getD, List.getElem?_map, List.getElem?_range hi]
  rfl

/-- C7: the two derived views agree — for every logical edge `e` and every
`i` below `edge_info[e].count`, walking from `edge_info[e].start` by
`i · edge_info[e].step` lands on the `phys` value of the `i`-th pixel-map
entry (in insertion order) owned by edge `e`. -/
theorem edge_views_agree (s : MappingState) (e i : Nat)
    (he : e < s.leds_per_edge.length)
    (hi : i < ((build_edge_index_map s).getD e default).count) :
    (((build_edge_index_map s).getD e default).start : Int)
      + (i : Int) * ((build_edge_index_map s).getD e default).step
    = ((((mapping_build_pixel_map s).filter
          (fun pm => pm.edge == e)).getD i default).phys : Int) := by
  rw [edge_info_getD s e he] at hi ⊢
  rw [pixel_map_filter s e he]
  simp only at hi
  rw [edge_block_getD s e i hi]
  by_cases hrev : s.flip_map.getD e false = true
  · simp only [hrev, if_true]
    omega
  · rw [Bool.not_eq_true] at hrev
    simp only [hrev, Bool.false_eq_true, if_false]
    omega

/-- C7 witness: the two views agree at edge 1, pixel 1 of a concrete
flipped two-edge state. -/
theorem edge_views_agree_witness :
    (((build_edge_index_map ⟨[2, 3], [1, 0], [false, true]⟩).getD 1
        default).start : Int)
      + (1 : Int) * ((build_edge_index_map ⟨[2, 3], [1, 0], [false, true]⟩).getD 1
        default).step
    = ((((mapping_build_pixel_map ⟨[2, 3], [1, 0], [false, true]⟩).filter
          (fun pm => pm.edge == 1)).getD 1 default).phys : Int) :=
  edge_views_agree ⟨[2, 3], [1, 0], [false, true]⟩ 1 1 (by decide) (by decide)

/-- The physical indices of one edge's block are a permutation of the
interval starting at its base: flipping only reverses the order. -/
theorem edge_block_phys_perm (s : MappingState) (l : Nat) :
    ((edge_block s l).map PixelMapping.phys)
      ~ List.range' ((s.leds_per_edge.take (s.edge_map.getD l 0)).sum)
          (s.leds_per_edge.getD l 0) := by
  unfold edge_block
  rw [List.map_map]
  set base := (s.leds_per_edge.take (s.edge_map.getD l 0)).sum with hbase
  set cnt := s.leds_per_edge.getD l 0 with hcnt
  by_cases hrev : s.flip_map.getD l false = true
  · have h1 : (List.range cnt).map
        (PixelMapping.phys ∘ fun i => (⟨l, base + (if s.flip_map.getD l false
          then cnt - 1 - i else i)⟩ : PixelMapping))
        = (List.range cnt).map (fun i => base + cnt - 1 - i) := by
      apply List.map_congr_left
      intro a ha
      have halt := List.mem_range.mp ha
      simp only [Function.comp_apply, hrev, if_true]
      omega
    rw [h1, ← List.reverse_range']
    exact List.reverse_perm _
  · rw [Bool.not_eq_true] at hrev
    have h1 : (List.range cnt).map
        (PixelMapping.phys ∘ fun i => (⟨l, base + (if s.flip_map.getD l false
          then cnt - 1 - i else i)⟩ : PixelMapping))
        = (List.range cnt).map (fun i => base + i) := by
      apply List.map_congr_left
      intro a _
      simp only [Function.comp_apply, hrev, Bool.false_eq_true, if_false]
    rw [h1, ← List.range'_eq_map_range]

/-- Concatenating the physical blocks in block order, one block per list
position, tiles the interval `[b, b + sum)`. -/
theorem flatMap_blocks_eq_range (L : List Nat) (b : Nat) :
    (List.range L.length).flatMap
        (fun j => List.range' (b + (L.take j).sum) (L.getD j 0))
      = List.range' b L.sum := by
  induction L generalizing b with
  | nil => simp
  | cons a L ih =>
    rw [List.length_cons, List.range_succ_eq_map, List.flatMap_cons,
      List.flatMap_map]
    have h0 : List.range' (b + (List.take 0 (a :: L)).sum) ((a :: L).getD 0 0)
        = List.range' b a := by
      simp
    have hsucc : (fun j => List.range'
          (b + ((a :: L).take (j + 1)).sum) ((a :: L).getD (j + 1) 0))
        = (fun j => List.range' ((b + a) + (L.take j).sum) (L.getD j 0)) := by
      funext j
      rw [List.take_succ_cons, List.sum_cons, List.getD_cons_succ,
        Nat.add_assoc]
    have hmain : (List.range L.length).flatMap
          (fun j => List.range' (b + ((a :: L).take (j + 1)).sum)
            ((a :: L).getD (j + 1) 0))
        = List.range' (b + a) L.sum := by
      rw [hsucc]
      exact ih (b + a)
    rw [h0]
    calc List.range' b a ++ (List.range L.length).flatMap
          (fun j => List.range' (b + ((a :: L).take (j + 1)).sum)
            ((a :: L).getD (j + 1) 0))
        = List.range' b a ++ List.range' (b + a) L.sum := by rw [hmain]
      _ = List.range' b (a + L.sum) := by
          rw [Nat.add_comm a L.sum]
          exact List.range'_append_1 b a L.sum
      _ = List.range' b (a :: L).sum := by rw [List.sum_cons]

/-- Reading a list back through `getD` over its index range reproduces it. -/
theorem map_getD_range (L : List Nat) :
    (List.range L.length).map (fun i => L.getD i 0) = L := by
  apply List.ext_getElem
  · simp
  · intro n h1 h2
    simp only [List.getElem_map, List.getElem_range,
      List.getD_eq_getElem?_getD]
    rw [List.getElem?_eq_getElem h2]
    rfl

/-- C3 (amended): whenever `edge_map` is a permutation of `[0, E)` that
preserves per-edge LED counts (`leds_per_edge[edge_map[l]] ==
leds_per_edge[l]`, e.g. the identity default or any remap among
equal-length edges), and for every `flip_map`, the `phys` fields of
`pixel_map` are a permutation of `[0, total_pixels)`, and the entries owned
by each edge `e` are exactly the block of `leds_per_edge[e]` consecutive
slots starting at its block base. -/
theorem pixel_map_bijection (s : MappingState)
    (hperm : s.edge_map ~ List.range s.leds_per_edge.length)
    (hpres : ∀ l, l < s.leds_per_edge.length →
      s.leds_per_edge.getD (s.edge_map.getD l 0) 0 = s.leds_per_edge.getD l 0) :
    ((mapping_build_pixel_map s).map PixelMapping.phys)
      ~ List.range s.leds_per_edge.sum ∧
    ∀ e, e < s.leds_per_edge.length →
      (((mapping_build_pixel_map s).filter (fun pm => pm.edge == e)).map
          PixelMapping.phys)
        ~ List.range' ((s.leds_per_edge.take (s.edge_map.getD e 0)).sum)
            (s.leds_per_edge.getD e 0) := by
  constructor
  · unfold mapping_build_pixel_map
    rw [List.map_flatMap]
    have hlen : s.edge_map.length = s.leds_per_edge.length := by
      have := hperm.length_eq
      simpa using this
    calc (List.range s.leds_per_edge.length).flatMap
          (fun l => (edge_block s l).map PixelMapping.phys)
        ~ (List.range s.leds_per_edge.length).flatMap
          (fun l => List.range'
            ((s.leds_per_edge.take (s.edge_map.getD l 0)).sum)
            (s.leds_per_edge.getD (s.edge_map.getD l 0) 0)) := by
          apply List.Perm.flatMap_left
          intro l hl
          have hl' := List.mem_range.mp hl
          rw [hpres l hl']
          exact edge_block_phys_perm s l
      _ = s.edge_map.flatMap
          (fun j => List.range' ((s.leds_per_edge.take j).sum)
            (s.leds_per_edge.getD j 0)) := by
          conv_rhs => rw [← map_getD_range s.edge_map]
          rw [List.flatMap_map, hlen]
      _ ~ (List.range s.leds_per_edge.length).flatMap
          (fun j => List.range' ((s.leds_per_edge.take j).sum)
            (s.leds_per_edge.getD j 0)) :=
          List.Perm.flatMap_right _ hperm
      _ = List.range' 0 s.leds_per_edge.sum := by
          rw [← flatMap_blocks_eq_range s.leds_per_edge 0]
          apply List.flatMap_congr
          intro j _
          rw [Nat.zero_add]
      _ = List.range s.leds_per_edge.sum := (List.range_eq_range' _).symm
  · intro e he
    rw [pixel_map_filter s e he]
    exact edge_block_phys_perm s e

/-- C3 (counterexample): for the LED counts `[1, 2]` and the swap
permutation `edge_map = [1, 0]` (blocks are placed at bases computed from
the physical position but sized by the logical edge's count), the `phys`
fields come out as `[1, 0, 1]` — physical slot 1 is claimed twice and slot
2 never, so `pixel_map` is not a bijection onto `[0, 3)` although
`edge_map` is a permutation of `[0, 2)`. -/
theorem pixel_map_bijection_refuted :
    (List.Perm mapping_state_swap.edge_map
      (List.range mapping_state_swap.leds_per_edge.length)) ∧
    mapping_state_swap.leds_per_edge.sum = 3 ∧
    ¬ (List.Perm
        ((mapping_build_pixel_map mapping_state_swap).map PixelMapping.phys)
        (List.range mapping_state_swap.leds_per_edge.sum)) := by
  refine ⟨by decide, by decide, fun h => ?_⟩
  have hc := h.count_eq 2
  simp [mapping_state_swap, mapping_build_pixel_map, edge_block,
    List.range, List.range.loop] at hc

/-- C3 witness: the amended bijection theorem applied to a concrete
three-edge state with a count-preserving permutation and one flip. -/
theorem pixel_map_bijection_witness :
    ((mapping_build_pixel_map ⟨[2, 1, 2], [2, 1, 0], [true, false, false]⟩).map
        PixelMapping.phys)
      ~ List.range ([2, 1, 2] : List Nat).sum :=
  (pixel_map_bijection ⟨[2, 1, 2], [2, 1, 0], [true, false, false]⟩
    (by decide) (by decide)).1

end InfinityPoly
